import Mathlib

/-!
Verification of the remotesync real-time collaboration core.

The definitions below are a shallow embedding of the Python source:
* `backend/app/api/documents.py` — the operation sequencer
  (`apply_document_operation`, `get_document_operations`, `create_document`);
* `backend/app/websocket/manager.py` — the connection manager
  (`connect`, `disconnect`, `broadcast_to_workspace`, `send_to_user`);
* `backend/app/middleware/rate_limiting.py` — the sliding-window limiter
  (`is_rate_limited`).

Document content is modelled as a list of characters; Python string slicing
with signed indices is modelled by `pyTake` / `pyDrop`.  Python dicts keep
insertion order, so they are modelled as association lists whose update
replaces in place and whose insert appends.  The Redis sorted set used by
the limiter is modelled as the list of its (distinct) integer scores in
insertion order; `zadd` with an already-present member leaves it unchanged
because the member string `str(current_time)` and its score coincide.
External effects (UUIDs, wall-clock ISO timestamps, Redis presence hashes,
TTLs) are not part of any verified statement and are omitted.
-/

namespace RemoteSync

/-- Document content: a Python string viewed as its list of characters. -/
abbrev PyStr := List Char

/-- Python `s[:i]` for a signed index `i`: nonnegative indices clamp at the
length, negative indices count from the end of the string. -/
def pyTake (s : PyStr) (i : Int) : PyStr :=
  if 0 ≤ i then s.take i.toNat else s.take (s.length - (-i).toNat)

/-- Python `s[i:]` for a signed index `i`. -/
def pyDrop (s : PyStr) (i : Int) : PyStr :=
  if 0 ≤ i then s.drop i.toNat else s.drop (s.length - (-i).toNat)

/-- Python `x or ""` applied to the optional `content` field (`None` and the
empty string both yield the empty string). -/
def orEmptyStr : Option PyStr → PyStr
  | none => []
  | some s => s

/-- Python `x or 0` applied to the optional `length` field (`None` and `0`
both yield `0`). -/
def orZeroInt : Option Int → Int
  | none => 0
  | some n => n

/-- The body of a `POST /documents/{id}/operations` request
(`DocumentOperationCreate` in `documents.py`). -/
structure OperationRequest where
  operation_type : String
  position : Int
  content : Option PyStr
  length : Option Int
  document_version : Int
deriving DecidableEq

/-- The content transformation of `apply_document_operation` (documents.py
lines 290–306): insert splices via Python slicing, delete removes the slice
`[position, position + (length or 0))`, and any other operation type leaves
the content unchanged. -/
def applyOpToContent (c : PyStr) (req : OperationRequest) : PyStr :=
  if req.operation_type = "insert" then
    pyTake c req.position ++ orEmptyStr req.content ++ pyDrop c req.position
  else if req.operation_type = "delete" then
    pyTake c req.position ++ pyDrop c (req.position + orZeroInt req.length)
  else c

/-- A persisted `DocumentOperation` row (models/document.py): it stores the
client-submitted `document_version` and the server-assigned
`operation_index`. -/
structure StoredOperation where
  user_id : String
  operation_type : String
  position : Int
  content : Option PyStr
  length : Option Int
  document_version : Int
  operation_index : Int
deriving DecidableEq

/-- The per-document persistent state: current content, current version and
the append-only operation log (in insertion order). -/
structure DocumentState where
  content : PyStr
  version : Int
  ops : List StoredOperation
deriving DecidableEq

/-- Embedding of `create_document` (documents.py lines 94–106): a new document carries the
request's initial content (default `""`), the model-default version `1`
(models/document.py line 17) and an empty operation log. -/
def createDocument (c : PyStr) : DocumentState :=
  ⟨c, 1, []⟩

/-- The `SELECT coalesce(max(operation_index), -1) + 1` query of
`apply_document_operation` (documents.py lines 269–274). -/
def nextOperationIndex (ops : List StoredOperation) : Int :=
  ((ops.map (fun o => o.operation_index)).foldl max (-1)) + 1

/-- The payload of the `document_operation` websocket broadcast built in
`apply_document_operation` (documents.py lines 322–339); its
`document_version` field is the client-submitted value. -/
structure BroadcastMessage where
  user_id : String
  operation_type : String
  position : Int
  content : Option PyStr
  length : Option Int
  document_version : Int
  operation_index : Int
deriving DecidableEq

/-- One accepted operation in `apply_document_operation` (documents.py lines
269–339): compute the next index, append the operation row, splice the
content, bump the version by one, and build the broadcast message. -/
def applyDocumentOperation (st : DocumentState) (uid : String)
    (req : OperationRequest) : DocumentState × BroadcastMessage :=
  let idx := nextOperationIndex st.ops
  let newOp : StoredOperation :=
    ⟨uid, req.operation_type, req.position, req.content, req.length,
      req.document_version, idx⟩
  let msg : BroadcastMessage :=
    ⟨uid, req.operation_type, req.position, req.content, req.length,
      req.document_version, idx⟩
  (⟨applyOpToContent st.content req, st.version + 1, st.ops ++ [newOp]⟩, msg)

/-- A sequence of accepted operations processed one after the other inside
the per-document critical section; each list entry is (author, request) in
arrival order. -/
def runOps (st : DocumentState) (reqs : List (String × OperationRequest)) :
    DocumentState :=
  reqs.foldl (fun s p => (applyDocumentOperation s p.1 p.2).1) st

/-- Read back a stored operation as the request it recorded. -/
def reqOfOp (o : StoredOperation) : OperationRequest :=
  ⟨o.operation_type, o.position, o.content, o.length, o.document_version⟩

/-- Replay a persisted operation log over a starting content. -/
def replayLog (c : PyStr) (ops : List StoredOperation) : PyStr :=
  ops.foldl (fun acc o => applyOpToContent acc (reqOfOp o)) c

/-- The SQL `ORDER BY operation_index` of `get_document_operations`
(documents.py line 386), as a stable sort. -/
def sortByIndex (l : List StoredOperation) : List StoredOperation :=
  l.insertionSort (fun a b => a.operation_index ≤ b.operation_index)

/-- The response of `GET /documents/{id}/operations`. -/
structure OperationsSinceResult where
  operations : List StoredOperation
  current_version : Int
deriving DecidableEq

/-- Embedding of `get_document_operations` (documents.py lines 378–405): the operations
whose stored `document_version` is strictly greater than `since_version`,
ordered by `operation_index`, plus the document's current version. -/
def getDocumentOperations (st : DocumentState) (since_version : Int) :
    OperationsSinceResult :=
  ⟨sortByIndex (st.ops.filter (fun o => since_version < o.document_version)),
    st.version⟩

/-! ### Connection manager (`backend/app/websocket/manager.py`)

Websockets are identified by opaque numeric handles.  Network sends can
fail; a run of the manager is parametrised by a predicate `fails` saying
which connections' `send_json` raises. -/

/-- An opaque websocket handle. -/
abbrev Conn := Nat

/-- Python dict update `d[k] = v`: replace in place if the key is present,
otherwise append (dicts preserve insertion order). -/
def alSet {α β : Type} [DecidableEq α] (l : List (α × β)) (k : α) (v : β) :
    List (α × β) :=
  if l.any (fun p => p.1 = k) then
    l.map (fun p => if p.1 = k then (k, v) else p)
  else l ++ [(k, v)]

/-- Python dict lookup `d.get(k)`. -/
def alGet {α β : Type} [DecidableEq α] (l : List (α × β)) (k : α) : Option β :=
  (l.find? (fun p => p.1 = k)).map (fun p => p.2)

/-- Python dict deletion `del d[k]`. -/
def alDel {α β : Type} [DecidableEq α] (l : List (α × β)) (k : α) :
    List (α × β) :=
  l.filter (fun p => ¬ p.1 = k)

/-- The mutable state of `ConnectionManager`: `active_connections`
(workspace id → list of websockets), `connection_users` (websocket →
user id) and `user_connections` (user id → websocket). -/
structure Manager where
  active : List (String × List Conn)
  connUsers : List (Conn × String)
  userConns : List (String × Conn)
deriving DecidableEq

/-- The freshly constructed `ConnectionManager()`. -/
def emptyManager : Manager := ⟨[], [], []⟩

/-- Embedding of `broadcast_to_workspace` (manager.py lines 84–95): try to send to every
connection currently in the workspace's list, collect the ones whose send
raised, then remove each of those from the list (`list.remove`, first
occurrence).  Returns the connections that received the message and the
updated manager. -/
def broadcastToWorkspace (m : Manager) (wid : String)
    (fails : Conn → Bool) : List Conn × Manager :=
  match alGet m.active wid with
  | none => ([], m)
  | some conns =>
    let delivered := conns.filter (fun c => ! fails c)
    let disconnected := conns.filter fails
    let newConns := disconnected.foldl (fun l c => l.erase c) conns
    (delivered, { m with active := alSet m.active wid newConns })

/-- Embedding of `connect` (manager.py lines 24–57): append the websocket to the
workspace's list; if a user id is supplied, bind websocket → user and
user → websocket (overwriting any previous binding for that user) and then
broadcast the presence-online announcement to the workspace.  The Redis
presence hash write is external and not modelled. -/
def connect (m : Manager) (ws : Conn) (wid : String) (uid : Option String)
    (fails : Conn → Bool) : Manager :=
  let conns := (alGet m.active wid).getD []
  let m1 := { m with active := alSet m.active wid (conns ++ [ws]) }
  match uid with
  | none => m1
  | some u =>
    let m2 := { m1 with connUsers := alSet m1.connUsers ws u,
                        userConns := alSet m1.userConns u ws }
    (broadcastToWorkspace m2 wid fails).2

/-- Embedding of `disconnect` (manager.py lines 59–79): remove the websocket from the
workspace's list; if the websocket has a user binding, delete it and, when
the user id is present in `user_connections`, delete that entry as well —
the code does not check that the stored connection is the one
disconnecting.  The offline announcement is scheduled as a detached task
and is not part of the synchronous state change. -/
def disconnect (m : Manager) (ws : Conn) (wid : String) : Manager :=
  let m1 :=
    match alGet m.active wid with
    | none => m
    | some conns =>
      if ws ∈ conns then
        { m with active := alSet m.active wid (conns.erase ws) }
      else m
  match alGet m1.connUsers ws with
  | none => m1
  | some u =>
    let m2 := { m1 with connUsers := alDel m1.connUsers ws }
    if (alGet m2.userConns u).isSome then
      { m2 with userConns := alDel m2.userConns u }
    else m2

/-- Embedding of `send_to_user` (manager.py lines 97–105): deliver to the user's bound
websocket if any; a failed send deletes the binding.  Returns the
connection the message was delivered to (`none` when nothing was
delivered) and the updated manager. -/
def sendToUser (m : Manager) (uid : String) (fails : Conn → Bool) :
    Option Conn × Manager :=
  match alGet m.userConns uid with
  | none => (none, m)
  | some ws =>
    if fails ws then (none, { m with userConns := alDel m.userConns uid })
    else (some ws, m)

/-! ### Sliding-window rate limiter
(`backend/app/middleware/rate_limiting.py`)

The Redis sorted set for one key is the list of its integer scores in
insertion order; the member string is `str(current_time)`, so a member
coincides with its score and `zadd` of an existing timestamp leaves the
set unchanged. -/

/-- Embedding of `zremrangebyscore(key, 0, window_start)`: drop the scores lying in the
closed interval `[0, window_start]`. -/
def purgeOld (s : List Int) (windowStart : Int) : List Int :=
  s.filter (fun t => ! (decide (0 ≤ t) && decide (t ≤ windowStart)))

/-- Embedding of the pipeline `zadd` call: insert the timestamp unless its
member string `str(t)` is already present. -/
def zaddTime (s : List Int) (t : Int) : List Int :=
  if t ∈ s then s else s ++ [t]

/-- Embedding of `is_rate_limited` (rate_limiting.py lines 43–73), happy path: one
pipeline purges old entries, counts what remains, unconditionally records
`now`, and the request is limited when the pre-record count has reached
the limit.  Returns `((is_limited, count), new_state)`. -/
def is_rate_limited (s : List Int) (limit : Nat) (window now : Int) :
    (Bool × Nat) × List Int :=
  let windowStart := now - window
  let purged := purgeOld s windowStart
  let count := purged.length
  ((decide (limit ≤ count), count), zaddTime purged now)

/-- The middleware `dispatch` (rate_limiting.py lines 75–110) admits a request exactly when
`is_rate_limited` reports it not limited.  `runLimiter` folds a sequence
of request timestamps through the limiter, collecting the admission
verdicts and the evolving stored state. -/
def runLimiter (s : List Int) (limit : Nat) (window : Int)
    (times : List Int) : List Bool × List Int :=
  times.foldl
    (fun acc t =>
      let r := is_rate_limited acc.2 limit window t
      (acc.1 ++ [! r.1.1], r.2))
    ([], s)

/-! ### Spec-side comparison definitions and concrete scenario instances -/

/-- The spec's description of `insert` for claim C9 (spec §4.3 step 4):
splice the payload at the position clamped to `[0, len(content)]`. -/
def specInsertClamped (c payload : PyStr) (pos : Int) : PyStr :=
  c.take (min pos.toNat c.length) ++ payload ++ c.drop (min pos.toNat c.length)

/-- The spec's description of `delete` for claim C9 (spec §4.3 step 4):
remove `length` characters starting at `position`, the removed range
clamped to the current bounds. -/
def specDeleteClamped (c : PyStr) (pos len : Int) : PyStr :=
  c.take (min pos.toNat c.length) ++
    c.drop (min (min pos.toNat c.length + len.toNat) c.length)

/-- The two-insert scenario of spec §8: a fresh document (version `1` by the
model default), user U1 inserts `"hello"` at 0 submitting their observed
version `1`, then user U2 inserts `"!!!"` at 5 submitting their observed
version `2`. -/
def scenarioDoc : DocumentState :=
  (applyDocumentOperation
    ((applyDocumentOperation (createDocument []) "U1"
        ⟨"insert", 0, some "hello".toList, none, 1⟩).1)
    "U2" ⟨"insert", 5, some "!!!".toList, none, 2⟩).1

/-- One accepted insert on a fresh document, submitted against the observed
version `1`; used to inspect the broadcast payload. -/
def c8pair : DocumentState × BroadcastMessage :=
  applyDocumentOperation (createDocument []) "author"
    ⟨"insert", 0, some ['h', 'i'], none, 1⟩

/-- User `"u"` connects on websocket 1 and then reconnects on websocket 2 in
workspace `"w"`, with no send failures. -/
def c5m : Manager :=
  connect (connect emptyManager 1 "w" (some "u") (fun _ => false))
    2 "w" (some "u") (fun _ => false)

/-- A workspace `"w"` with connections 1 and 2 where connection 1 is user
`"u"`'s primary connection. -/
def c6m : Manager := ⟨[("w", [1, 2])], [(1, "u")], [("u", 1)]⟩

/-! ### Helper lemmas -/

lemma init_le_foldl_max (l : List Int) (a : Int) : a ≤ l.foldl max a := by
  induction l generalizing a with
  | nil => exact le_refl a
  | cons x t ih => exact le_trans (le_max_left a x) (ih (max a x))

lemma le_foldl_max (l : List Int) (a : Int) :
    ∀ x ∈ l, x ≤ l.foldl max a := by
  induction l generalizing a with
  | nil => intro x hx; cases hx
  | cons y t ih =>
    intro x hx
    rcases List.mem_cons.mp hx with hx | hx
    · subst hx
      exact le_trans (le_max_right a x) (init_le_foldl_max t (max a x))
    · exact ih (max a y) x hx

/-- Every stored operation's index is strictly below the next index the
sequencer will assign. -/
lemma idx_lt_next (ops : List StoredOperation) (o : StoredOperation)
    (h : o ∈ ops) : o.operation_index < nextOperationIndex ops := by
  have hm : o.operation_index ∈ ops.map (fun o => o.operation_index) :=
    List.mem_map_of_mem _ h
  have := le_foldl_max (ops.map (fun o => o.operation_index)) (-1)
    o.operation_index hm
  unfold nextOperationIndex
  omega

/-- The integer indices `0, 1, …, n-1`. -/
def intRange (n : Nat) : List Int := (List.range n).map Int.ofNat

lemma foldl_max_intRange (n : Nat) :
    (intRange n).foldl max (-1) = (n : Int) - 1 := by
  induction n with
  | zero => rfl
  | succ k ih =>
    unfold intRange at *
    rw [List.range_succ, List.map_append, List.foldl_append, ih]
    simp only [List.map_cons, List.map_nil, List.foldl_cons, List.foldl_nil]
    rw [show Int.ofNat k = (k : Int) from rfl,
      max_eq_right (by omega : (k : Int) - 1 ≤ (k : Int))]
    push_cast
    ring

lemma next_of_intRange (ops : List StoredOperation) (n : Nat)
    (h : ops.map (fun o => o.operation_index) = intRange n) :
    nextOperationIndex ops = (n : Int) := by
  unfold nextOperationIndex
  rw [h, foldl_max_intRange]
  ring

/-- The strict ordering of the operation log by assigned index. -/
def IdxLt (a b : StoredOperation) : Prop :=
  a.operation_index < b.operation_index

lemma runOps_cons (st : DocumentState) (p : String × OperationRequest)
    (rest : List (String × OperationRequest)) :
    runOps st (p :: rest) = runOps ((applyDocumentOperation st p.1 p.2).1) rest :=
  rfl

lemma pairwise_step (st : DocumentState) (uid : String)
    (req : OperationRequest) (h : st.ops.Pairwise IdxLt) :
    ((applyDocumentOperation st uid req).1).ops.Pairwise IdxLt := by
  have : ((applyDocumentOperation st uid req).1).ops =
      st.ops ++ [⟨uid, req.operation_type, req.position, req.content,
        req.length, req.document_version, nextOperationIndex st.ops⟩] := rfl
  rw [this, List.pairwise_append]
  refine ⟨h, List.pairwise_singleton _ _, ?_⟩
  intro a ha b hb
  rcases List.mem_singleton.mp hb with rfl
  exact idx_lt_next st.ops a ha

lemma pairwise_runOps (reqs : List (String × OperationRequest)) :
    ∀ st : DocumentState, st.ops.Pairwise IdxLt →
      (runOps st reqs).ops.Pairwise IdxLt := by
  induction reqs with
  | nil => intro st h; exact h
  | cons p rest ih =>
    intro st h
    rw [runOps_cons]
    exact ih _ (pairwise_step st p.1 p.2 h)

lemma replay_step (b : PyStr) (st : DocumentState) (uid : String)
    (req : OperationRequest) (h : replayLog b st.ops = st.content) :
    replayLog b ((applyDocumentOperation st uid req).1).ops =
      ((applyDocumentOperation st uid req).1).content := by
  have hops : ((applyDocumentOperation st uid req).1).ops =
      st.ops ++ [⟨uid, req.operation_type, req.position, req.content,
        req.length, req.document_version, nextOperationIndex st.ops⟩] := rfl
  have hc : ((applyDocumentOperation st uid req).1).content =
      applyOpToContent st.content req := rfl
  rw [hops, hc]
  unfold replayLog at h ⊢
  rw [List.foldl_append, h]
  rfl

lemma replay_runOps (reqs : List (String × OperationRequest)) :
    ∀ (b : PyStr) (st : DocumentState), replayLog b st.ops = st.content →
      replayLog b (runOps st reqs).ops = (runOps st reqs).content := by
  induction reqs with
  | nil => intro b st h; exact h
  | cons p rest ih =>
    intro b st h
    rw [runOps_cons]
    exact ih b _ (replay_step b st p.1 p.2 h)

lemma idx_step (st : DocumentState) (uid : String) (req : OperationRequest)
    (n : Nat) (h : st.ops.map (fun o => o.operation_index) = intRange n) :
    ((applyDocumentOperation st uid req).1).ops.map
        (fun o => o.operation_index) = intRange (n + 1) := by
  have hops : ((applyDocumentOperation st uid req).1).ops =
      st.ops ++ [⟨uid, req.operation_type, req.position, req.content,
        req.length, req.document_version, nextOperationIndex st.ops⟩] := rfl
  rw [hops, List.map_append, h]
  have hn := next_of_intRange st.ops n h
  unfold intRange
  rw [List.range_succ, List.map_append]
  simp [hn]

lemma idx_runOps (reqs : List (String × OperationRequest)) :
    ∀ (st : DocumentState) (n : Nat),
      st.ops.map (fun o => o.operation_index) = intRange n →
      (runOps st reqs).ops.map (fun o => o.operation_index) =
        intRange (n + reqs.length) := by
  induction reqs with
  | nil => intro st n h; simpa using h
  | cons p rest ih =>
    intro st n h
    rw [runOps_cons]
    have := ih _ (n + 1) (idx_step st p.1 p.2 n h)
    rw [this]
    congr 1
    simp
    omega

/-- An operation log whose indices are strictly increasing is left unchanged
by the resynchronization query's `ORDER BY operation_index`. -/
lemma sortByIndex_of_pairwise (l : List StoredOperation)
    (h : l.Pairwise IdxLt) : sortByIndex l = l :=
  List.Sorted.insertionSort_eq
    (h.imp (fun hab => le_of_lt hab))

lemma alGet_alSet {α β : Type} [DecidableEq α] (l : List (α × β)) (k : α)
    (v : β) : alGet (alSet l k v) k = some v := by
  unfold alSet alGet
  by_cases h : l.any (fun p => decide (p.1 = k)) = true
  · rw [if_pos h]
    induction l with
    | nil => simp at h
    | cons p t ih =>
      by_cases hp : p.1 = k
      · simp [hp]
      · have ht : t.any (fun p => decide (p.1 = k)) = true := by
          have h' := h
          rw [List.any_cons] at h'
          rcases Bool.or_eq_true_iff.mp h' with hc | hc
          · exact absurd (of_decide_eq_true hc) hp
          · exact hc
        simpa [hp] using ih ht
  · rw [if_neg h]
    induction l with
    | nil => simp
    | cons p t ih =>
      have hp : ¬ p.1 = k := by
        intro hk
        exact h (by simp [List.any_cons, hk])
      have ht : ¬ t.any (fun p => decide (p.1 = k)) = true := by
        intro hk
        exact h (by simp [List.any_cons, hk])
      simpa [hp] using ih ht

/-- Cleaning up the failed connections one `list.remove` at a time amounts
to filtering them out, provided the connection list has no duplicates. -/
lemma foldl_erase_eq_filter (d : List Conn) :
    ∀ l : List Conn, l.Nodup →
      d.foldl (fun a c => a.erase c) l =
        l.filter (fun c => ! decide (c ∈ d)) := by
  induction d with
  | nil => intro l _; simp
  | cons a d ih =>
    intro l hl
    have h1 : l.erase a = l.filter (fun c => ! decide (c = a)) := by
      rw [hl.erase_eq_filter]
      apply List.filter_congr
      intro x _
      by_cases hxa : x = a <;> simp [hxa]
    calc (a :: d).foldl (fun a c => a.erase c) l
        = d.foldl (fun a c => a.erase c) (l.erase a) := rfl
      _ = (l.filter (fun c => ! decide (c = a))).filter
            (fun c => ! decide (c ∈ d)) := by
          rw [h1]
          exact ih _ (hl.filter _)
      _ = l.filter (fun c => ! decide (c ∈ a :: d)) := by
          rw [List.filter_filter]
          apply List.filter_congr
          intro x _
          by_cases hx : x = a <;> by_cases hd : x ∈ d <;>
            simp [hx, hd, List.mem_cons]

lemma take_min (c : PyStr) (n : Nat) : c.take n = c.take (min n c.length) := by
  rcases Nat.le_total n c.length with h | h
  · rw [Nat.min_eq_left h]
  · rw [Nat.min_eq_right h, List.take_of_length_le h, List.take_length]

lemma drop_min (c : PyStr) (n : Nat) : c.drop n = c.drop (min n c.length) := by
  rcases Nat.le_total n c.length with h | h
  · rw [Nat.min_eq_left h]
  · rw [Nat.min_eq_right h, List.drop_eq_nil_of_le h, List.drop_length]

/-- On nonnegative timestamps the limiter's purge keeps exactly the strictly
in-window entries. -/
lemma purgeOld_eq_filter (s : List Int) (ws : Int) (h : ∀ t ∈ s, 0 ≤ t) :
    purgeOld s ws = s.filter (fun t => decide (ws < t)) := by
  unfold purgeOld
  apply List.filter_congr
  intro t ht
  have h0 := h t ht
  by_cases hc : t ≤ ws
  · simp [h0, hc, not_lt.mpr hc]
  · have hlt : ws < t := by omega
    simp [h0, hc, hlt]

/-! ### Claim theorems -/

/-- Claim C1 (amended): for every document created with empty initial
content — the creation default — and every sequence of accepted operations
in any arrival order, replaying the persisted operation log sorted by
`operation_index` from the empty string reproduces exactly the document's
final stored content. -/
theorem c1_replay_reproduces_content
    (reqs : List (String × OperationRequest)) :
    replayLog [] (sortByIndex (runOps (createDocument []) reqs).ops) =
      (runOps (createDocument []) reqs).content := by
  have hp := pairwise_runOps reqs (createDocument []) List.Pairwise.nil
  rw [sortByIndex_of_pairwise _ hp]
  exact replay_runOps reqs [] (createDocument []) rfl

/-- Claim C1 counterexample: a document may be created with nonempty initial
content (`DocumentCreate.content` defaults to `""` but is caller-chosen);
for such a document, replaying its (empty) operation log from the empty
string does not reproduce the stored content. -/
theorem c1_counterexample :
    ¬ (replayLog [] (sortByIndex (createDocument ['x']).ops) =
        (createDocument ['x']).content) := by decide

/-- Claim C2 (amended): `is_rate_limited` purges the timestamps lying in
`[0, now - window]` (boundary inclusive), reports the request limited
exactly when the count of surviving timestamps has reached the limit,
returns that pre-record count, and always records `now` (deduplicated at
second granularity) — also for rejected requests, which therefore do
consume budget. -/
theorem c2_limiter_characterization (s : List Int) (limit : Nat)
    (window now : Int) (h : ∀ t ∈ s, 0 ≤ t) :
    ((is_rate_limited s limit window now).1.1 = true ↔
      limit ≤ (s.filter (fun t => now - window < t)).length) ∧
    (is_rate_limited s limit window now).1.2 =
      (s.filter (fun t => now - window < t)).length ∧
    (is_rate_limited s limit window now).2 =
      (if now ∈ s.filter (fun t => now - window < t)
       then s.filter (fun t => now - window < t)
       else s.filter (fun t => now - window < t) ++ [now]) := by
  have key := purgeOld_eq_filter s (now - window) h
  simp only [is_rate_limited, zaddTime, key]
  simp

/-- Witness for C2 at a concrete input: one fresh timestamp, limit 5. -/
theorem c2_limiter_characterization_witness :
    ((is_rate_limited [100] 5 60 130).1.1 = true ↔
      5 ≤ (([100] : List Int).filter (fun t => (130 : Int) - 60 < t)).length) ∧
    (is_rate_limited [100] 5 60 130).1.2 =
      (([100] : List Int).filter (fun t => (130 : Int) - 60 < t)).length ∧
    (is_rate_limited [100] 5 60 130).2 =
      (if (130 : Int) ∈ ([100] : List Int).filter
          (fun t => (130 : Int) - 60 < t)
       then ([100] : List Int).filter (fun t => (130 : Int) - 60 < t)
       else ([100] : List Int).filter (fun t => (130 : Int) - 60 < t)
            ++ [130]) :=
  c2_limiter_characterization [100] 5 60 130 (by decide)

/-- Claim C2 counterexample: an admitted request is reported with the
pre-record count (`0`, not the claimed "new count" `1`), and a rejected
request still records its timestamp — the state after a rejected call on
`[100]` is `[100, 101]`, not `[100]`. -/
theorem c2_counterexample :
    (is_rate_limited [] 5 60 100).1.1 = false ∧
    (is_rate_limited [] 5 60 100).1.2 = 0 ∧
    (is_rate_limited [100] 1 60 101).1.1 = true ∧
    (is_rate_limited [100] 1 60 101).2 = [100, 101] ∧
    ¬ ((is_rate_limited [100] 1 60 101).2 = [100]) := by decide

/-- Claim C3 (code bug): with limit 5 and window 60, six requests all
arriving at the same integer second are all admitted — the sorted-set
member `str(current_time)` collides, so the recorded state never holds
more than one entry and the sixth request is not rejected, contrary to the
limiter's own "5 attempts per minute" rule. -/
theorem c3_same_second_burst :
    (runLimiter [] 5 60 [100, 100, 100, 100, 100, 100]).1 =
      [true, true, true, true, true, true] ∧
    (runLimiter [] 5 60 [100, 100, 100, 100, 100, 100]).2 = [100] := by
  decide

/-- Claim C4 (confirmed): on the all-success path the `operation_index`
values assigned to a document's accepted operations are exactly
`0, 1, …, n-1` in order — unique, contiguous, non-decreasing, starting at
0 with no gaps. -/
theorem c4_sequence_indices (c : PyStr)
    (reqs : List (String × OperationRequest)) :
    (runOps (createDocument c) reqs).ops.map (fun o => o.operation_index) =
      (List.range reqs.length).map Int.ofNat := by
  have h := idx_runOps reqs (createDocument c) 0 rfl
  simpa [intRange] using h

/-- Claim C5 (code bug): after user `"u"` reconnects on websocket 2, direct
sends reach only websocket 2; but when the stale websocket 1 then
disconnects, `disconnect` deletes the user's binding without checking that
it points at the disconnecting socket, so a subsequent `send_to_user`
delivers to no connection at all. -/
theorem c5_reconnect_stale_disconnect :
    (sendToUser c5m "u" (fun _ => false)).1 = some 2 ∧
    (sendToUser (disconnect c5m 1 "w") "u" (fun _ => false)).1 = none := by
  decide

/-- Claim C6 (amended): a send failure on one connection aborts nothing —
every non-failing connection in the group still receives the message, with
no retry — and each failed connection is removed from the group's
connection list only; the user-session bindings (and hence the offline
announcement of the full §4.1 removal contract) are untouched. -/
theorem c6_broadcast_isolation (m : Manager) (wid : String)
    (conns : List Conn) (fails : Conn → Bool)
    (h : alGet m.active wid = some conns) (hnd : conns.Nodup) :
    (broadcastToWorkspace m wid fails).1 =
      conns.filter (fun c => ! fails c) ∧
    alGet ((broadcastToWorkspace m wid fails).2).active wid =
      some (conns.filter (fun c => ! fails c)) ∧
    (broadcastToWorkspace m wid fails).2.connUsers = m.connUsers ∧
    (broadcastToWorkspace m wid fails).2.userConns = m.userConns := by
  have hclean : (conns.filter fails).foldl (fun l c => l.erase c) conns =
      conns.filter (fun c => ! fails c) := by
    rw [foldl_erase_eq_filter _ conns hnd]
    apply List.filter_congr
    intro x hx
    have : (decide (x ∈ conns.filter fails)) = fails x := by
      by_cases hf : fails x
      · simp [List.mem_filter, hx, hf]
      · simp [List.mem_filter, hf]
    rw [this]
  have hb : broadcastToWorkspace m wid fails =
      (conns.filter (fun c => ! fails c),
        { m with
            active := alSet m.active wid (conns.filter (fun c => ! fails c)) }) := by
    unfold broadcastToWorkspace
    rw [h]
    dsimp only
    rw [hclean]
  rw [hb]
  exact ⟨rfl, alGet_alSet _ _ _, rfl, rfl⟩

/-- Witness for C6: a three-connection group where connection 2 fails. -/
theorem c6_broadcast_isolation_witness :
    (alGet (Manager.mk [("w", [1, 2, 3])] [] []).active "w" =
      some [1, 2, 3]) ∧
    (List.Nodup [1, 2, 3]) ∧
    ((broadcastToWorkspace (Manager.mk [("w", [1, 2, 3])] [] []) "w"
        (fun c => c == 2)).1 =
      ([1, 2, 3] : List Conn).filter (fun c => ! (c == 2)) ∧
    alGet ((broadcastToWorkspace (Manager.mk [("w", [1, 2, 3])] [] []) "w"
        (fun c => c == 2)).2).active "w" =
      some (([1, 2, 3] : List Conn).filter (fun c => ! (c == 2))) ∧
    (broadcastToWorkspace (Manager.mk [("w", [1, 2, 3])] [] []) "w"
        (fun c => c == 2)).2.connUsers =
      (Manager.mk [("w", [1, 2, 3])] [] []).connUsers ∧
    (broadcastToWorkspace (Manager.mk [("w", [1, 2, 3])] [] []) "w"
        (fun c => c == 2)).2.userConns =
      (Manager.mk [("w", [1, 2, 3])] [] []).userConns) :=
  ⟨by decide, by decide,
    c6_broadcast_isolation (Manager.mk [("w", [1, 2, 3])] [] []) "w"
      [1, 2, 3] (fun c => c == 2) (by decide) (by decide)⟩

/-- Claim C6 counterexample: when the failing connection is a user's
primary connection, the broadcast cleanup removes it from the group list
but leaves `connection_users`/`user_connections` intact, whereas the §4.1
removal contract (the `disconnect` routine) would clear the user binding —
so the failed connection is not removed "per 4.1". -/
theorem c6_counterexample :
    (broadcastToWorkspace c6m "w" (fun c => c == 1)).1 = [2] ∧
    (broadcastToWorkspace c6m "w" (fun c => c == 1)).2.userConns =
      [("u", 1)] ∧
    (disconnect c6m 1 "w").userConns = [] ∧
    ¬ ((broadcastToWorkspace c6m "w" (fun c => c == 1)).2.userConns =
        (disconnect c6m 1 "w").userConns) := by decide

/-- Claim C7 (amended): the resynchronization query returns exactly the
stored operations whose recorded `document_version` is strictly greater
than `since_version`, in `operation_index` order (which for reachable
states is the acceptance order), together with the document's current
version.  In the §8 two-insert scenario, documents are created at version
1, so a client submitting observed versions records `document_version` 1
for operation A and 2 for operation B: a resync with `since_version = 0`
returns both operations, and only `since_version = 1` returns just B. -/
theorem c7_operations_since :
    (∀ (c : PyStr) (reqs : List (String × OperationRequest)) (since : Int),
      getDocumentOperations (runOps (createDocument c) reqs) since =
        ⟨(runOps (createDocument c) reqs).ops.filter
            (fun o => since < o.document_version),
          (runOps (createDocument c) reqs).version⟩) ∧
    (getDocumentOperations scenarioDoc 1).operations.map
        (fun o => o.operation_index) = [1] ∧
    scenarioDoc.content = "hello!!!".toList ∧ scenarioDoc.version = 3 := by
  refine ⟨?_, by decide, by decide, by decide⟩
  intro c reqs since
  have hp := pairwise_runOps reqs (createDocument c) List.Pairwise.nil
  unfold getDocumentOperations
  rw [sortByIndex_of_pairwise _ (hp.filter _)]

/-- Claim C7 counterexample: in the §8 scenario the resync with
`since_version = 0` returns both operations (indices 0 and 1), not only
operation B. -/
theorem c7_counterexample :
    (getDocumentOperations scenarioDoc 0).operations.map
        (fun o => o.operation_index) = [0, 1] ∧
    ¬ ((getDocumentOperations scenarioDoc 0).operations.map
        (fun o => o.operation_index) = [1]) := by decide

/-- Claim C8 (amended): the broadcast message of an accepted operation
carries the assigned `operation_index` and the client-submitted
`document_version` (not the document's new, post-increment version, which
is `version + 1`), and with no send failures it is delivered to every
connection of the workspace group — no one, in particular not the author,
is excluded. -/
theorem c8_broadcast_message (st : DocumentState) (uid : String)
    (req : OperationRequest) (m : Manager) (wid : String)
    (conns : List Conn) (h : alGet m.active wid = some conns) :
    (applyDocumentOperation st uid req).2.operation_index =
      nextOperationIndex st.ops ∧
    (applyDocumentOperation st uid req).2.document_version =
      req.document_version ∧
    (applyDocumentOperation st uid req).1.version = st.version + 1 ∧
    (broadcastToWorkspace m wid (fun _ => false)).1 = conns := by
  refine ⟨rfl, rfl, rfl, ?_⟩
  unfold broadcastToWorkspace
  rw [h]
  simp

/-- Witness for C8: a concrete accepted insert broadcast to a
two-connection group. -/
theorem c8_broadcast_message_witness :
    (alGet (Manager.mk [("w", [1, 2])] [] []).active "w" = some [1, 2]) ∧
    ((applyDocumentOperation (createDocument []) "author"
        ⟨"insert", 0, some ['h', 'i'], none, 1⟩).2.operation_index =
      nextOperationIndex (createDocument []).ops ∧
    (applyDocumentOperation (createDocument []) "author"
        ⟨"insert", 0, some ['h', 'i'], none, 1⟩).2.document_version =
      (⟨"insert", 0, some ['h', 'i'], none, 1⟩ :
        OperationRequest).document_version ∧
    (applyDocumentOperation (createDocument []) "author"
        ⟨"insert", 0, some ['h', 'i'], none, 1⟩).1.version =
      (createDocument []).version + 1 ∧
    (broadcastToWorkspace (Manager.mk [("w", [1, 2])] [] []) "w"
        (fun _ => false)).1 = [1, 2]) :=
  ⟨by decide,
    c8_broadcast_message (createDocument []) "author"
      ⟨"insert", 0, some ['h', 'i'], none, 1⟩
      (Manager.mk [("w", [1, 2])] [] []) "w" [1, 2] (by decide)⟩

/-- Claim C8 counterexample: the document's new (post-increment) version is
`2`, yet the broadcast message carries the client-submitted
`document_version = 1`. -/
theorem c8_counterexample :
    c8pair.2.document_version = 1 ∧ c8pair.1.version = 2 ∧
    ¬ (c8pair.2.document_version = c8pair.1.version) := by decide

/-- Claim C9 (amended): for nonnegative `position` (and, for delete,
nonnegative `length`), insert splices the payload at the position clamped
to `[0, len(content)]` and delete removes the range clamped to the current
bounds, never erroring; the §8 scenario — delete `position=3, length=100`
on content of length 10 — removes exactly characters 3–9.  (Negative
positions are interpreted Python-style from the end of the string, not
clamped to 0.) -/
theorem c9_clamping_nonneg (c payload : PyStr) (pos len v : Int)
    (hp : 0 ≤ pos) (hl : 0 ≤ len) :
    applyOpToContent c ⟨"insert", pos, some payload, none, v⟩ =
      specInsertClamped c payload pos ∧
    applyOpToContent c ⟨"delete", pos, none, some len, v⟩ =
      specDeleteClamped c pos len ∧
    applyOpToContent "0123456789".toList ⟨"delete", 3, none, some 100, 0⟩ =
      "012".toList := by
  refine ⟨?_, ?_, by decide⟩
  · have h1 : applyOpToContent c ⟨"insert", pos, some payload, none, v⟩ =
        pyTake c pos ++ payload ++ pyDrop c pos := by
      simp [applyOpToContent, orEmptyStr]
    rw [h1]
    unfold specInsertClamped pyTake pyDrop
    rw [if_pos hp, if_pos hp, ← take_min, ← drop_min]
  · have h1 : applyOpToContent c ⟨"delete", pos, none, some len, v⟩ =
        pyTake c pos ++ pyDrop c (pos + len) := by
      simp [applyOpToContent, orZeroInt]
    rw [h1]
    unfold specDeleteClamped pyTake pyDrop
    rw [if_pos hp, if_pos (by omega : (0 : Int) ≤ pos + len),
      Int.toNat_add hp hl, take_min c pos.toNat,
      drop_min c (pos.toNat + len.toNat)]
    congr 2
    omega

/-- Witness for C9: insert `"X"` at 1 and delete one character at 1 in
`"abc"`. -/
theorem c9_clamping_nonneg_witness :
    ((0 : Int) ≤ 1) ∧ ((0 : Int) ≤ 1) ∧
    (applyOpToContent ['a', 'b', 'c'] ⟨"insert", 1, some ['X'], none, 7⟩ =
      specInsertClamped ['a', 'b', 'c'] ['X'] 1 ∧
    applyOpToContent ['a', 'b', 'c'] ⟨"delete", 1, none, some 1, 7⟩ =
      specDeleteClamped ['a', 'b', 'c'] 1 1 ∧
    applyOpToContent "0123456789".toList ⟨"delete", 3, none, some 100, 0⟩ =
      "012".toList) :=
  ⟨by decide, by decide,
    c9_clamping_nonneg ['a', 'b', 'c'] ['X'] 1 1 7 (by decide) (by decide)⟩

/-- Claim C9 counterexample: insert at position `-1` into `"ab"` yields
`"aXb"` (Python counts negative positions from the end), not the `"Xab"`
demanded by clamping the position to `[0, len(content)]`. -/
theorem c9_counterexample :
    applyOpToContent ['a', 'b'] ⟨"insert", -1, some ['X'], none, 0⟩ =
      ['a', 'X', 'b'] ∧
    specInsertClamped ['a', 'b'] ['X'] (-1) = ['X', 'a', 'b'] ∧
    ¬ (applyOpToContent ['a', 'b'] ⟨"insert", -1, some ['X'], none, 0⟩ =
        specInsertClamped ['a', 'b'] ['X'] (-1)) := by decide

/-- Claim C10 (confirmed): an operation whose type is neither `"insert"`
nor `"delete"` leaves the content unchanged, still appends a persisted
operation record carrying the next `operation_index`, and still increments
the document's version by 1. -/
theorem c10_unknown_type_frame (st : DocumentState) (uid : String)
    (req : OperationRequest) (h1 : ¬ req.operation_type = "insert")
    (h2 : ¬ req.operation_type = "delete") :
    (applyDocumentOperation st uid req).1.content = st.content ∧
    (applyDocumentOperation st uid req).1.version = st.version + 1 ∧
    (applyDocumentOperation st uid req).1.ops =
      st.ops ++ [⟨uid, req.operation_type, req.position, req.content,
        req.length, req.document_version, nextOperationIndex st.ops⟩] := by
  refine ⟨?_, rfl, rfl⟩
  have : (applyDocumentOperation st uid req).1.content =
      applyOpToContent st.content req := rfl
  rw [this]
  unfold applyOpToContent
  rw [if_neg h1, if_neg h2]

/-- Witness for C10: a `"retain"` operation on a one-character document. -/
theorem c10_unknown_type_frame_witness :
    (¬ ("retain" : String) = "insert") ∧ (¬ ("retain" : String) = "delete") ∧
    ((applyDocumentOperation (createDocument ['a']) "u"
        ⟨"retain", 0, none, none, 1⟩).1.content =
      (createDocument ['a']).content ∧
    (applyDocumentOperation (createDocument ['a']) "u"
        ⟨"retain", 0, none, none, 1⟩).1.version =
      (createDocument ['a']).version + 1 ∧
    (applyDocumentOperation (createDocument ['a']) "u"
        ⟨"retain", 0, none, none, 1⟩).1.ops =
      (createDocument ['a']).ops ++ [⟨"u", "retain", 0, none, none, 1,
        nextOperationIndex (createDocument ['a']).ops⟩]) :=
  ⟨by decide, by decide,
    c10_unknown_type_frame (createDocument ['a']) "u"
      ⟨"retain", 0, none, none, 1⟩ (by decide) (by decide)⟩

end RemoteSync
